import Mathlib

/-!
Shallow embedding of `pretrain_discriminator.py`: the checkpoint store,
the metrics recorder, the label mixer, the batch sampler call, and the
event trace of one run of `main`, together with theorems about them.
Scalars (losses, accuracies, labels, elapsed times) are modelled as
rationals; tensors as lists.
-/

/-! ### Checkpoint store

`torch.save` of a Python dict is modelled as an association list from
string keys to values; a `checkpoint[key]` subscript that would raise
`KeyError` is modelled as `none`. -/

/-- Lookup of a key in a saved checkpoint dict. -/
def lookupKey (k : String) : List (String × V) → Option V
  | [] => none
  | (k2, v) :: rest => if k2 = k then some v else lookupKey k rest

/-- The dict written at an epoch boundary (src `pretrain_discriminator.py`
lines 93-99): keys `dis_state_dict` and `optimizer_state_dict`. -/
def saveDisCheckpoint (disState optState : V) : List (String × V) :=
  [("dis_state_dict", disState), ("optimizer_state_dict", optState)]

/-- The startup read of a discriminator checkpoint (src lines 62-66): it
subscripts the dict at `dis_state_dict` and at `dis_optimizer_state_dict`;
a missing key raises `KeyError`, modelled as `none`. -/
def loadDisCheckpoint (ckpt : List (String × V)) : Option (V × V) :=
  match lookupKey "dis_state_dict" ckpt, lookupKey "dis_optimizer_state_dict" ckpt with
  | some d, some o => some (d, o)
  | _, _ => none

/-- The startup read of a generator checkpoint (src lines 57-60): only the
key `gen_state_dict` is used. -/
def loadGenCheckpoint (ckpt : List (String × V)) : Option V :=
  lookupKey "gen_state_dict" ckpt

/-! ### Metrics recorder -/

/-- Modelled from the spec: the `AverageMeter` class comes from the
repository's `utils` module, which is not under `src/`; per the spec's
Running Metric description it keeps the last seen value and the cumulative
mean of all updates since it was constructed, here as a running sum and
count. -/
structure AverageMeter where
  val : ℚ
  sum : ℚ
  count : ℕ
deriving DecidableEq

/-- A freshly constructed meter (`AverageMeter()`). -/
def AverageMeter.empty : AverageMeter := ⟨0, 0, 0⟩

/-- One `update(v)` call: record the value and extend the running mean. -/
def AverageMeter.update (m : AverageMeter) (v : ℚ) : AverageMeter :=
  { val := v, sum := m.sum + v, count := m.count + 1 }

/-- The cumulative average of a meter (0 when no update has happened). -/
def AverageMeter.avg (m : AverageMeter) : ℚ := m.sum / m.count

/-- The meter state at the end of one call of `train` (src lines 117-151):
`train` constructs a fresh meter at entry (lines 118-119) and applies one
update per batch (lines 150-151). The same shape is used for the loss and
the accuracy meter, so the per-batch scalars are left abstract. -/
def trainMeter (batchVals : List ℚ) : AverageMeter :=
  batchVals.foldl AverageMeter.update AverageMeter.empty

/-- The end-of-epoch meter states over a whole run of `main`
(src lines 87-91): `train` is invoked once per epoch and each invocation
builds its own meter. -/
def runMeters : List (List ℚ) → List AverageMeter
  | [] => []
  | l :: ls => trainMeter l :: runMeters ls

/-- The running meter as the claim describes it: a single meter created
once at process start and updated across every epoch of the run. -/
def claimedRunMeter (epochVals : List (List ℚ)) : AverageMeter :=
  epochVals.foldl (fun m l => l.foldl AverageMeter.update m) AverageMeter.empty

/-- C1. The checkpoint round-trip fails: the save path writes the optimizer
state under the key `optimizer_state_dict`, while the startup load reads
the key `dis_optimizer_state_dict`, so loading any checkpoint written by
the save path raises `KeyError` instead of restoring the state. -/
theorem c1_checkpoint_roundtrip_fails (V : Type) (disState optState : V) :
    loadDisCheckpoint (saveDisCheckpoint disState optState) = none := by
  simp [loadDisCheckpoint, saveDisCheckpoint, lookupKey]

/-- C2 counterexample. With per-batch losses `[0]` in epoch 0 and `[1]` in
epoch 1, the meter observed after epoch 1 has average 1, not the cumulative
mean 1/2 over both epochs: the running average after epoch 1 does not
reflect epoch 0 at all. -/
theorem c2_counterexample :
    (runMeters [[0], [1]]).getLast? = some (trainMeter [1]) ∧
    ((runMeters [[0], [1]]).getLast?.map AverageMeter.avg) = some 1 ∧
    (claimedRunMeter [[0], [1]]).avg = 1 / 2 ∧
    ((runMeters [[0], [1]]).getLast?.map AverageMeter.avg) ≠
      some ((claimedRunMeter [[0], [1]]).avg) := by
  refine ⟨rfl, ?_, ?_, ?_⟩ <;>
    norm_num [runMeters, trainMeter, claimedRunMeter, AverageMeter.update,
      AverageMeter.empty, AverageMeter.avg]

/-- `runMeters` distributes over concatenation of epoch lists. -/
theorem runMeters_append (a b : List (List ℚ)) :
    runMeters (a ++ b) = runMeters a ++ runMeters b := by
  induction a with
  | nil => rfl
  | cons x xs ih => simp [runMeters, ih]

/-- C2 (amended). The meters are re-created at the start of every call of
`train`, i.e. at every epoch: the meter observed at the end of the final
epoch is the fold of that epoch's per-batch values alone, whatever the
earlier epochs contributed. -/
theorem c2_meters_reset_each_epoch (pre : List (List ℚ)) (l : List ℚ) :
    (runMeters (pre ++ [l])).getLast? = some (trainMeter l) := by
  rw [runMeters_append]
  simp [runMeters]

/-! ### Log line and stats row -/

/-- The format arguments of the per-interval log line, in order
(src lines 153-159): epoch, batch id, elapsed time for the batch, then
`losses.avg, losses.val, acc.avg, acc.val`. -/
def logLineFields (epoch batchId : ℕ) (elapsed : ℚ) (losses acc : AverageMeter) : List ℚ :=
  [epoch, batchId, elapsed, losses.avg, losses.val, acc.avg, acc.val]

/-- The row appended to the stats CSV when `save_stats` is on
(src lines 161-167): `[epoch, batch_id, losses.avg, losses.val, acc.val, acc.avg]`. -/
def csvRowFields (epoch batchId : ℕ) (losses acc : AverageMeter) : List ℚ :=
  [epoch, batchId, losses.avg, losses.val, acc.val, acc.avg]

/-- The log line as the claim describes it: current value before running
average, for the loss and for the accuracy. -/
def claimedLogLineFields (epoch batchId : ℕ) (elapsed : ℚ) (losses acc : AverageMeter) :
    List ℚ :=
  [epoch, batchId, elapsed, losses.val, losses.avg, acc.val, acc.avg]

/-- C3 counterexample. With a loss meter fed `[4, 2]` (current 2, running 3)
and an accuracy meter fed `[0, 1]` (current 1, running 1/2), the emitted log
line differs from the claimed current-then-running layout, and the CSV row
is not even a permutation of the log line's fields: the elapsed-time field
is absent from it. -/
theorem c3_counterexample :
    logLineFields 1 3 7 (trainMeter [4, 2]) (trainMeter [0, 1]) ≠
      claimedLogLineFields 1 3 7 (trainMeter [4, 2]) (trainMeter [0, 1]) ∧
    ¬ List.Perm (csvRowFields 1 3 (trainMeter [4, 2]) (trainMeter [0, 1]))
        (logLineFields 1 3 7 (trainMeter [4, 2]) (trainMeter [0, 1])) := by
  constructor
  · norm_num [logLineFields, claimedLogLineFields, trainMeter, AverageMeter.update,
      AverageMeter.empty, AverageMeter.avg]
  · intro h
    have hlen := h.length_eq
    simp [csvRowFields, logLineFields] at hlen

/-- C3 (amended). The log line lists epoch, batch index, elapsed time, then
for loss and accuracy the running average before the current value; the CSV
row carries the same fields as the log line except the elapsed time, with
the two accuracy fields transposed — as a multiset it is exactly the log
line minus the time field. -/
theorem c3_log_and_csv_fields (e b : ℕ) (t : ℚ) (lm am : AverageMeter) :
    logLineFields e b t lm am =
      [(e : ℚ), (b : ℚ), t, lm.avg, lm.val, am.avg, am.val] ∧
    List.Perm (csvRowFields e b lm am) ((logLineFields e b t lm am).eraseIdx 2) := by
  refine ⟨rfl, ?_⟩
  show List.Perm ((e : ℚ) :: (b : ℚ) :: lm.avg :: lm.val :: [am.val, am.avg])
    ((e : ℚ) :: (b : ℚ) :: lm.avg :: lm.val :: [am.avg, am.val])
  exact .cons _ (.cons _ (.cons _ (.cons _ (List.Perm.swap am.avg am.val []))))

/-! ### Label mixer -/

/-- The pre-permutation target labels (src lines 142-144): `n` ones for the
real half followed by `n` zeros for the fake half, where `n` is the real
batch size. -/
def targets (n : ℕ) : List ℚ :=
  List.replicate n 1 ++ List.replicate n 0

/-- Tensor fancy indexing `xs[indices]` (src lines 146-147): output position
`j` holds entry `indices[j]` of `xs`. Out-of-range indices, which would be
an error in the source, read the default `d`. -/
def indexSelect (xs : List α) (indices : List ℕ) (d : α) : List α :=
  indices.map fun i => xs.getD i d

/-- Reading every position of a list in order reproduces the list. -/
theorem map_getD_range (xs : List α) (d : α) :
    (List.range xs.length).map (fun i => xs.getD i d) = xs := by
  apply List.ext_getElem
  · simp
  · intro i h1 h2
    have hr : i < (List.range xs.length).length := by simpa using h2
    simp only [List.getElem_map, List.getElem_range]
    exact List.getD_eq_getElem xs d h2

/-- Selecting along a permutation of all positions permutes the list. -/
theorem indexSelect_perm (xs : List α) (d : α) (p : List ℕ)
    (hp : List.Perm p (List.range xs.length)) :
    List.Perm (indexSelect xs p d) xs := by
  have h1 := hp.map fun i => xs.getD i d
  rw [map_getD_range] at h1
  exact h1

/-- C4. The mixed batch has `2n` labels: before shuffling they are `n` ones
(the real half, first) then `n` zeros (the fake half), and after selecting
along any permutation of the `2n` positions the labels are still exactly
`n` ones and `n` zeros. -/
theorem c4_label_counts (n : ℕ) (p : List ℕ)
    (hp : List.Perm p (List.range (2 * n))) :
    (targets n).length = 2 * n ∧
    (targets n).take n = List.replicate n 1 ∧
    (targets n).drop n = List.replicate n 0 ∧
    (targets n).count 1 = n ∧ (targets n).count 0 = n ∧
    (indexSelect (targets n) p 0).count 1 = n ∧
    (indexSelect (targets n) p 0).count 0 = n := by
  have hlen : (targets n).length = 2 * n := by
    simp [targets, two_mul]
  have hperm : List.Perm (indexSelect (targets n) p 0) (targets n) :=
    indexSelect_perm (targets n) 0 p (by rwa [hlen])
  have h1 : (targets n).count 1 = n := by
    simp [targets, List.count_replicate]
  have h0 : (targets n).count 0 = n := by
    simp [targets, List.count_replicate]
  refine ⟨hlen, ?_, ?_, h1, h0, ?_, ?_⟩
  · exact List.take_left' (by simp)
  · exact List.drop_left' (by simp)
  · rw [hperm.count_eq, h1]
  · rw [hperm.count_eq, h0]

/-- C4 witness at `n = 2` with the permutation `[3, 0, 2, 1]`. -/
theorem c4_label_counts_witness :
    List.Perm [3, 0, 2, 1] (List.range (2 * 2)) ∧
    ((targets 2).length = 2 * 2 ∧
     (targets 2).take 2 = List.replicate 2 1 ∧
     (targets 2).drop 2 = List.replicate 2 0 ∧
     (targets 2).count 1 = 2 ∧ (targets 2).count 0 = 2 ∧
     (indexSelect (targets 2) [3, 0, 2, 1] 0).count 1 = 2 ∧
     (indexSelect (targets 2) [3, 0, 2, 1] 0).count 0 = 2) :=
  ⟨by decide, c4_label_counts 2 [3, 0, 2, 1] (by decide)⟩

/-- The four aligned tensors of the mixed batch (src lines 138-144), over an
abstract caption-row type `α` and image type `β`. -/
structure PrePermBatch (β α : Type) where
  inputs : List α
  inputLens : List ℕ
  imgs : List β
  labels : List ℚ

/-- Building the pre-permutation batch (src lines 139-144): captions real
then fake, lengths real then fake, images duplicated, labels from the real
batch size `caps.length`. -/
def mixBatch (imgs : List β) (caps fakeCaps : List α)
    (capLens fakeCapLens : List ℕ) : PrePermBatch β α :=
  { inputs := caps ++ fakeCaps
    inputLens := capLens ++ fakeCapLens
    imgs := imgs ++ imgs
    labels := targets caps.length }

/-- Applying the drawn permutation `indices` to all four tensors
(src lines 146-147): `imgs[indices]`, `inputs[indices]`,
`input_lens[indices]`, `targets[indices]`. -/
def shuffleBatch (b : PrePermBatch β α) (p : List ℕ) (di : β) (dc : α) :
    PrePermBatch β α :=
  { inputs := indexSelect b.inputs p dc
    inputLens := indexSelect b.inputLens p 0
    imgs := indexSelect b.imgs p di
    labels := indexSelect b.labels p 0 }

/-- Reading position `j` of an index-selected list reads position `p[j]` of
the original list. -/
theorem indexSelect_getD (xs : List α) (p : List ℕ) (d : α) (j : ℕ)
    (hj : j < p.length) :
    (indexSelect xs p d).getD j d = xs.getD (p.getD j 0) d := by
  have hj2 : j < (indexSelect xs p d).length := by
    simpa [indexSelect] using hj
  rw [List.getD_eq_getElem _ _ hj2, List.getD_eq_getElem p 0 hj]
  simp [indexSelect]

/-- C5. The same drawn permutation is applied to captions, lengths, images
and labels: at every output position `j` all four shuffled tensors read the
same pre-permutation index `p[j]`, and that index is a valid position of the
size-`2n` mixed batch. -/
theorem c5_shuffle_alignment (imgs : List β) (caps fakeCaps : List α)
    (capLens fakeCapLens : List ℕ) (p : List ℕ) (n : ℕ) (di : β) (dc : α)
    (hc : caps.length = n)
    (hp : List.Perm p (List.range (2 * n))) (j : ℕ) (hj : j < p.length) :
    p.getD j 0 < 2 * n ∧
    (shuffleBatch (mixBatch imgs caps fakeCaps capLens fakeCapLens) p di dc).inputs.getD j dc
      = (mixBatch imgs caps fakeCaps capLens fakeCapLens).inputs.getD (p.getD j 0) dc ∧
    (shuffleBatch (mixBatch imgs caps fakeCaps capLens fakeCapLens) p di dc).inputLens.getD j 0
      = (mixBatch imgs caps fakeCaps capLens fakeCapLens).inputLens.getD (p.getD j 0) 0 ∧
    (shuffleBatch (mixBatch imgs caps fakeCaps capLens fakeCapLens) p di dc).imgs.getD j di
      = (mixBatch imgs caps fakeCaps capLens fakeCapLens).imgs.getD (p.getD j 0) di ∧
    (shuffleBatch (mixBatch imgs caps fakeCaps capLens fakeCapLens) p di dc).labels.getD j 0
      = (mixBatch imgs caps fakeCaps capLens fakeCapLens).labels.getD (p.getD j 0) 0 := by
  subst hc
  refine ⟨?_, ?_, ?_, ?_, ?_⟩
  · have hmem : p.getD j 0 ∈ p := by
      rw [List.getD_eq_getElem p 0 hj]
      exact List.getElem_mem hj
    rw [hp.mem_iff, List.mem_range] at hmem
    exact hmem
  · exact indexSelect_getD _ p dc j hj
  · exact indexSelect_getD _ p 0 j hj
  · exact indexSelect_getD _ p di j hj
  · exact indexSelect_getD _ p 0 j hj

/-- C5 witness: one real example, one fake example, permutation `[1, 0]`,
output position 0. -/
theorem c5_shuffle_alignment_witness :
    ([[5]] : List (List ℕ)).length = 1 ∧
    List.Perm [1, 0] (List.range (2 * 1)) ∧ 0 < ([1, 0] : List ℕ).length ∧
    (([1, 0] : List ℕ).getD 0 0 < 2 * 1 ∧
     (shuffleBatch (mixBatch [10] [[5]] [[7]] [1] [1]) [1, 0] 0 []).inputs.getD 0 []
       = (mixBatch [10] [[5]] [[7]] [1] [1]).inputs.getD (([1, 0] : List ℕ).getD 0 0) [] ∧
     (shuffleBatch (mixBatch [10] [[5]] [[7]] [1] [1]) [1, 0] 0 []).inputLens.getD 0 0
       = (mixBatch [10] [[5]] [[7]] [1] [1]).inputLens.getD (([1, 0] : List ℕ).getD 0 0) 0 ∧
     (shuffleBatch (mixBatch [10] [[5]] [[7]] [1] [1]) [1, 0] 0 []).imgs.getD 0 0
       = (mixBatch [10] [[5]] [[7]] [1] [1]).imgs.getD (([1, 0] : List ℕ).getD 0 0) 0 ∧
     (shuffleBatch (mixBatch [10] [[5]] [[7]] [1] [1]) [1, 0] 0 []).labels.getD 0 0
       = (mixBatch [10] [[5]] [[7]] [1] [1]).labels.getD (([1, 0] : List ℕ).getD 0 0) 0) :=
  ⟨rfl, by decide, by decide,
    c5_shuffle_alignment [10] [[5]] [[7]] [1] [1] [1, 0] 1 0 [] rfl (by decide) 0 (by decide)⟩

/-! ### Batch sampler call -/

/-- The argument tuple `sample_from_start` passes to `generator.sample`
(src lines 103-109): target length `max(torch.max(cap_lens), args.max_len) - 1`,
column shape `caps.shape[1]`, the image features, the first token of every
real caption (`caps[:, 0]`), and the configured sampling method. -/
structure GenSampleCall (β : Type) where
  capLen : ℕ
  colShape : ℕ
  imgFeats : List β
  inputWords : List ℕ
  samplingMethod : String
deriving DecidableEq

/-- The call built by `sample_from_start` (src lines 103-109). Captions are
rows of a rectangular tensor, so `caps.shape[1]` is the width of the first
row. -/
def sampleFromStartCall (imgs : List β) (caps : List (List ℕ)) (capLens : List ℕ)
    (maxLen : ℕ) (method : String) : GenSampleCall β :=
  { capLen := max (capLens.foldl max 0) maxLen - 1
    colShape := (caps.headD []).length
    imgFeats := imgs
    inputWords := caps.map fun c => c.getD 0 0
    samplingMethod := method }

/-- The start of a `foldl max` is a lower bound of the result. -/
theorem le_foldlMax (l : List ℕ) (a : ℕ) : a ≤ l.foldl max a := by
  induction l generalizing a with
  | nil => exact le_refl a
  | cons x xs ih => exact le_trans (le_max_left a x) (ih (max a x))

/-- Every member of the list is bounded by its `foldl max`. -/
theorem mem_le_foldlMax (l : List ℕ) (a : ℕ) : ∀ x ∈ l, x ≤ l.foldl max a := by
  induction l generalizing a with
  | nil => intro x hx; cases hx
  | cons y ys ih =>
      intro x hx
      rcases List.mem_cons.mp hx with h | h
      · subst h
        exact le_trans (le_max_right a x) (le_foldlMax ys (max a x))
      · exact ih (max a y) x h

/-- A `foldl max` is its starting value or a member of the list. -/
theorem foldlMax_attained (l : List ℕ) (a : ℕ) :
    l.foldl max a = a ∨ l.foldl max a ∈ l := by
  induction l generalizing a with
  | nil => exact Or.inl rfl
  | cons x xs ih =>
      rcases ih (max a x) with h | h
      · rcases max_choice a x with h2 | h2
        · exact Or.inl (by rw [List.foldl_cons, h, h2])
        · refine Or.inr ?_
          rw [List.foldl_cons, h, h2]
          exact List.mem_cons_self x xs
      · exact Or.inr (List.mem_cons_of_mem x h)

/-- C6. The generator is invoked with target length
`max(max observed real length, configured max-length) - 1`: one more than
the target length bounds every real caption length and the configured
max-length, and is attained by one of them; and the initial word vector is
each real caption's first token. -/
theorem c6_sampler_call (imgs : List β) (caps : List (List ℕ)) (capLens : List ℕ)
    (maxLen : ℕ) (method : String) (hm : 1 ≤ maxLen) :
    (∀ l ∈ capLens,
      l ≤ (sampleFromStartCall imgs caps capLens maxLen method).capLen + 1) ∧
    maxLen ≤ (sampleFromStartCall imgs caps capLens maxLen method).capLen + 1 ∧
    ((sampleFromStartCall imgs caps capLens maxLen method).capLen + 1 ∈ capLens ∨
      (sampleFromStartCall imgs caps capLens maxLen method).capLen + 1 = maxLen) ∧
    ∀ i : ℕ, i < caps.length →
      (sampleFromStartCall imgs caps capLens maxLen method).inputWords.getD i 0
        = (caps.getD i []).getD 0 0 := by
  have hM : 1 ≤ max (capLens.foldl max 0) maxLen :=
    le_trans hm (le_max_right _ _)
  have hsub : (sampleFromStartCall imgs caps capLens maxLen method).capLen + 1
      = max (capLens.foldl max 0) maxLen := by
    show max (capLens.foldl max 0) maxLen - 1 + 1 = _
    omega
  refine ⟨?_, ?_, ?_, ?_⟩
  · intro l hl
    rw [hsub]
    exact le_trans (mem_le_foldlMax capLens 0 l hl) (le_max_left _ _)
  · rw [hsub]
    exact le_max_right _ _
  · rw [hsub]
    rcases max_choice (capLens.foldl max 0) maxLen with h | h
    · rcases foldlMax_attained capLens 0 with h2 | h2
      · rw [h, h2] at hM
        omega
      · left
        rw [h]
        exact h2
    · exact Or.inr h
  · intro i hi
    have hi2 : i < ((caps.map fun c => c.getD 0 0).length) := by simpa using hi
    show (caps.map fun c => c.getD 0 0).getD i 0 = _
    rw [List.getD_eq_getElem _ _ hi2, List.getElem_map, List.getD_eq_getElem caps [] hi]

/-- C6 witness: two real captions of lengths 5 and 3, configured max-length
20, so the generator is called with target length 19. -/
theorem c6_sampler_call_witness :
    1 ≤ 20 ∧
    ((∀ l ∈ ([5, 3] : List ℕ),
       l ≤ (sampleFromStartCall [0] [[1, 2], [3, 4]] [5, 3] 20 "multinomial").capLen + 1) ∧
     20 ≤ (sampleFromStartCall [0] [[1, 2], [3, 4]] [5, 3] 20 "multinomial").capLen + 1 ∧
     ((sampleFromStartCall [0] [[1, 2], [3, 4]] [5, 3] 20 "multinomial").capLen + 1
        ∈ ([5, 3] : List ℕ) ∨
      (sampleFromStartCall [0] [[1, 2], [3, 4]] [5, 3] 20 "multinomial").capLen + 1 = 20) ∧
     ∀ i : ℕ, i < ([[1, 2], [3, 4]] : List (List ℕ)).length →
       (sampleFromStartCall [0] [[1, 2], [3, 4]] [5, 3] 20 "multinomial").inputWords.getD i 0
         = (([[1, 2], [3, 4]] : List (List ℕ)).getD i []).getD 0 0) :=
  ⟨by decide, c6_sampler_call [0] [[1, 2], [3, 4]] [5, 3] 20 "multinomial" (by decide)⟩

/-! ### Checkpoint file naming

Paths are modelled as lists of character codes, so that the decimal
rendering of the epoch index can be reasoned about through `Nat.digits`. -/

/-- The code points of a fixed string piece of a path. -/
def strChars (s : String) : List ℕ :=
  s.data.map Char.toNat

/-- The code points of the decimal rendering of a natural number, as Python
`str.format` renders a nonnegative integer: most significant digit first,
`0` rendered as `"0"` (code point 48). -/
def decDigits (n : ℕ) : List ℕ :=
  if n = 0 then [48] else ((Nat.digits 10 n).map fun d => 48 + d).reverse

/-- The checkpoint path written after epoch `e` (src lines 94-99):
`storage + '/ckpts/' + dataset + '/dis/' + 'pretrain_dis_{e}_{method}_{arch}.pth'`. -/
def disSavePath (storage dataset : String) (e : ℕ) (method arch : String) : List ℕ :=
  strChars (storage ++ "/ckpts/" ++ dataset ++ "/dis/" ++ "pretrain_dis" ++ "_")
    ++ decDigits e
    ++ strChars ("_" ++ method ++ "_" ++ arch ++ ".pth")

/-- All checkpoint paths written during a run of `main` over `epochs`
epochs (src lines 87-99): one per epoch when `save_model` is set, none
otherwise. -/
def runSavePaths (storage dataset method arch : String) (saveModel : Bool)
    (epochs : ℕ) : List (List ℕ) :=
  if saveModel then
    (List.range epochs).map fun e => disSavePath storage dataset e method arch
  else []

/-- Distinct naturals render to distinct decimal digit strings. -/
theorem decDigits_injective : Function.Injective decDigits := by
  have hofz : Nat.ofDigits 10 [0] = 0 := by
    simp [Nat.ofDigits]
  have hf : Function.Injective fun d : ℕ => 48 + d := by
    intro x y hxy
    simpa using hxy
  have hzero : ∀ b : ℕ, b ≠ 0 → decDigits b ≠ [48] := by
    intro b hb h
    rw [decDigits, if_neg hb] at h
    have h2 : (Nat.digits 10 b).map (fun d => 48 + d) = [48] := by
      have := congrArg List.reverse h
      simpa using this
    rcases he : Nat.digits 10 b with _ | ⟨d, rest⟩
    · rw [he] at h2
      simp at h2
    · rw [he] at h2
      simp at h2
      obtain ⟨hd, hrest⟩ := h2
      have hb0 : b = 0 := by
        have := Nat.ofDigits_digits 10 b
        rw [he, hrest] at this
        have hd0 : d = 0 := by omega
        rw [hd0] at this
        rw [hofz] at this
        exact this.symm
      exact hb hb0
  intro a b h
  by_cases ha : a = 0 <;> by_cases hb : b = 0
  · rw [ha, hb]
  · exfalso
    rw [ha] at h
    exact hzero b hb (h.symm.trans (by rw [decDigits]; simp))
  · exfalso
    rw [hb] at h
    exact hzero a ha (h.trans (by rw [decDigits]; simp))
  · rw [decDigits, if_neg ha, decDigits, if_neg hb] at h
    have h1 := List.reverse_injective h
    have h2 := List.map_injective_iff.mpr hf h1
    have h3 := congrArg (Nat.ofDigits 10) h2
    rwa [Nat.ofDigits_digits, Nat.ofDigits_digits] at h3

/-- For a fixed run configuration the save path determines the epoch. -/
theorem disSavePath_epoch_injective (storage dataset method arch : String) :
    Function.Injective fun e => disSavePath storage dataset e method arch := by
  intro e1 e2 h
  simp only [disSavePath] at h
  rw [List.append_assoc, List.append_assoc] at h
  have h2 := List.append_cancel_left h
  have h3 := List.append_cancel_right h2
  exact decDigits_injective h3

/-- C7. Every save of a run writes to a path tagged with the epoch index,
sampling method and backbone identifier, and the paths written across a run
are pairwise distinct: no save overwrites a checkpoint written earlier in
the run. -/
theorem c7_save_paths_nodup (storage dataset method arch : String)
    (saveModel : Bool) (epochs : ℕ) :
    (runSavePaths storage dataset method arch saveModel epochs).Nodup := by
  rw [runSavePaths]
  cases saveModel with
  | false => simp
  | true =>
      simp only [if_pos]
      exact (List.nodup_range epochs).map
        (disSavePath_epoch_injective storage dataset method arch)

/-! ### Event trace of a run of `main`

The observable filesystem/log actions of `main` (src lines 30-100) with
`train` inlined (src lines 117-167), over an abstract number of batches per
epoch. -/

/-- One observable action of the script. -/
inductive Event where
  | loadGen : Event
  | loadDis : Event
  | saveDis : List ℕ → Event
  | logLine : ℕ → ℕ → Event
  | csvRow : ℕ → ℕ → Event
  | epochDone : ℕ → Event
deriving DecidableEq

/-- The configuration options of the script that the trace depends on
(src lines 170-191). -/
structure RunConfig where
  storage : String
  dataset : String
  samplingMethod : String
  cnnArchitecture : String
  epochs : ℕ
  printFreq : ℕ
  saveModel : Bool
  saveStats : Bool

/-- The per-batch events of one epoch (src lines 126-167): at every batch
index divisible by `print_freq`, a log line, then a CSV row when
`save_stats` is on. -/
def batchTrace (cfg : RunConfig) (e nb : ℕ) : List Event :=
  (List.range nb).flatMap fun b =>
    if b % cfg.printFreq = 0 then
      Event.logLine e b :: (if cfg.saveStats then [Event.csvRow e b] else [])
    else []

/-- The events of one epoch of the loop in `main` (src lines 87-100): the
batch events, then a checkpoint save when `save_model` is on, then the
completion log. -/
def epochTrace (cfg : RunConfig) (e nb : ℕ) : List Event :=
  batchTrace cfg e nb
    ++ (if cfg.saveModel then
          [Event.saveDis (disSavePath cfg.storage cfg.dataset e
            cfg.samplingMethod cfg.cnnArchitecture)]
        else [])
    ++ [Event.epochDone e]

/-- The events of the whole epoch loop (src line 87): one `epochTrace` per
epoch index in `range(epochs)`. -/
def epochsTrace (cfg : RunConfig) (nb : ℕ) : List Event :=
  (List.range cfg.epochs).flatMap fun e => epochTrace cfg e nb

/-- The startup events (src lines 57-66): a generator load when the
generator checkpoint file exists, then a discriminator load when the
discriminator checkpoint file exists. -/
def startupTrace (genExists disExists : Bool) : List Event :=
  (if genExists then [Event.loadGen] else [])
    ++ (if disExists then [Event.loadDis] else [])

/-- The full trace of one run of `main`: startup loads, then the epoch
loop. -/
def mainTrace (cfg : RunConfig) (genExists disExists : Bool) (nb : ℕ) :
    List Event :=
  startupTrace genExists disExists ++ epochsTrace cfg nb

/-- Checkpoint-load events. -/
def Event.isLoad : Event → Bool
  | Event.loadGen => true
  | Event.loadDis => true
  | _ => false

/-- Generator-load events. -/
def Event.isLoadGen : Event → Bool
  | Event.loadGen => true
  | _ => false

/-- Discriminator-load events. -/
def Event.isLoadDis : Event → Bool
  | Event.loadDis => true
  | _ => false

/-- Checkpoint-save events. -/
def Event.isSave : Event → Bool
  | Event.saveDis _ => true
  | _ => false

/-- CSV metric-row events. -/
def Event.isCsv : Event → Bool
  | Event.csvRow _ _ => true
  | _ => false

/-- Epoch-completion events. -/
def Event.isEpochDone : Event → Bool
  | Event.epochDone _ => true
  | _ => false

/-- Every event of the batch part of an epoch is a log line or a CSV row. -/
theorem mem_batchTrace (cfg : RunConfig) (e nb : ℕ) (ev : Event)
    (hev : ev ∈ batchTrace cfg e nb) :
    ∃ b, b < nb ∧ (ev = Event.logLine e b ∨ ev = Event.csvRow e b) := by
  rw [batchTrace, List.mem_flatMap] at hev
  obtain ⟨b, hb, hev⟩ := hev
  rw [List.mem_range] at hb
  refine ⟨b, hb, ?_⟩
  by_cases hpb : b % cfg.printFreq = 0
  · rw [if_pos hpb] at hev
    rcases List.mem_cons.mp hev with h | h
    · exact Or.inl h
    · cases hs : cfg.saveStats with
      | false => rw [hs] at h; simp at h
      | true =>
          rw [hs] at h
          simp at h
          exact Or.inr h
  · rw [if_neg hpb] at hev
    simp at hev

/-- Every event of an epoch is a log line, a CSV row, a checkpoint save for
that epoch, or that epoch's completion log. -/
theorem mem_epochTrace (cfg : RunConfig) (e nb : ℕ) (ev : Event)
    (hev : ev ∈ epochTrace cfg e nb) :
    (∃ b, b < nb ∧ (ev = Event.logLine e b ∨ ev = Event.csvRow e b)) ∨
    ev = Event.saveDis (disSavePath cfg.storage cfg.dataset e
      cfg.samplingMethod cfg.cnnArchitecture) ∨
    ev = Event.epochDone e := by
  rw [epochTrace] at hev
  rcases List.mem_append.mp hev with hev | hev
  · rcases List.mem_append.mp hev with hev | hev
    · exact Or.inl (mem_batchTrace cfg e nb ev hev)
    · cases hs : cfg.saveModel with
      | false => rw [hs] at hev; simp at hev
      | true =>
          rw [hs] at hev
          simp at hev
          exact Or.inr (Or.inl hev)
  · simp at hev
    exact Or.inr (Or.inr hev)

/-- The epoch loop performs no checkpoint load. -/
theorem epochsTrace_no_load (cfg : RunConfig) (nb : ℕ) :
    ∀ ev ∈ epochsTrace cfg nb, Event.isLoad ev = false := by
  intro ev hev
  rw [epochsTrace, List.mem_flatMap] at hev
  obtain ⟨e, _, hev⟩ := hev
  rcases mem_epochTrace cfg e nb ev hev with ⟨b, _, h | h⟩ | h | h <;>
    subst h <;> rfl

/-- The generator state after the startup block (src lines 57-60): kept at
its fresh initialisation when no file exists at the path, otherwise read
from the checkpoint dict. -/
def startupGenState (fs : String → Option (List (String × V))) (p : String)
    (freshGen : V) : Option V :=
  match fs p with
  | none => some freshGen
  | some ckpt => loadGenCheckpoint ckpt

/-- The discriminator and optimizer state after the startup block
(src lines 62-66): kept at their fresh initialisation when no file exists
at the path, otherwise read from the checkpoint dict. -/
def startupDisState (fs : String → Option (List (String × V))) (p : String)
    (freshDis freshOpt : V) : Option (V × V) :=
  match fs p with
  | none => some (freshDis, freshOpt)
  | some ckpt => loadDisCheckpoint ckpt

/-- No generator-load event occurs in the epoch loop. -/
theorem epochsTrace_no_loadGen (cfg : RunConfig) (nb : ℕ) :
    (epochsTrace cfg nb).countP Event.isLoadGen = 0 := by
  rw [List.countP_eq_zero]
  intro a ha
  have h := epochsTrace_no_load cfg nb a ha
  cases a <;> simp_all [Event.isLoad, Event.isLoadGen]

/-- No discriminator-load event occurs in the epoch loop. -/
theorem epochsTrace_no_loadDis (cfg : RunConfig) (nb : ℕ) :
    (epochsTrace cfg nb).countP Event.isLoadDis = 0 := by
  rw [List.countP_eq_zero]
  intro a ha
  have h := epochsTrace_no_load cfg nb a ha
  cases a <;> simp_all [Event.isLoad, Event.isLoadDis]

/-- C8. Checkpoint loading is guarded by file existence and happens only in
the startup block: when no file exists at the configured path, the
generator, discriminator and optimizer keep exactly their freshly
initialised state and the run performs no load at all; and whatever files
exist, each checkpoint is loaded at most once and never inside the epoch
loop. -/
theorem c8_load_once_at_startup {V : Type} (cfg : RunConfig) (nb : ℕ)
    (fs : String → Option (List (String × V))) (genPath disPath : String)
    (freshGen freshDis freshOpt : V)
    (hg : fs genPath = none) (hd : fs disPath = none) :
    startupGenState fs genPath freshGen = some freshGen ∧
    startupDisState fs disPath freshDis freshOpt = some (freshDis, freshOpt) ∧
    (mainTrace cfg (fs genPath).isSome (fs disPath).isSome nb).countP Event.isLoad = 0 ∧
    (∀ gE dE : Bool,
      (mainTrace cfg gE dE nb).countP Event.isLoadGen ≤ 1 ∧
      (mainTrace cfg gE dE nb).countP Event.isLoadDis ≤ 1) ∧
    (∀ ev ∈ epochsTrace cfg nb, Event.isLoad ev = false) := by
  have hload0 : (epochsTrace cfg nb).countP Event.isLoad = 0 := by
    rw [List.countP_eq_zero]
    intro a ha
    rw [epochsTrace_no_load cfg nb a ha]
    simp
  refine ⟨?_, ?_, ?_, ?_, epochsTrace_no_load cfg nb⟩
  · rw [startupGenState, hg]
  · rw [startupDisState, hd]
  · rw [hg, hd]
    show (mainTrace cfg false false nb).countP Event.isLoad = 0
    rw [mainTrace, List.countP_append, hload0]
    simp [startupTrace]
  · intro gE dE
    constructor
    · rw [mainTrace, List.countP_append, epochsTrace_no_loadGen]
      cases gE <;> cases dE <;>
        simp [startupTrace, List.countP_append, List.countP_cons, Event.isLoadGen]
    · rw [mainTrace, List.countP_append, epochsTrace_no_loadDis]
      cases gE <;> cases dE <;>
        simp [startupTrace, List.countP_append, List.countP_cons, Event.isLoadDis]

/-- A sample configuration: one epoch, checkpoint saving off, stats saving
on, print frequency 1. -/
def sampleConfig : RunConfig :=
  { storage := "st", dataset := "ds", samplingMethod := "multinomial",
    cnnArchitecture := "resnet152", epochs := 1, printFreq := 1,
    saveModel := false, saveStats := true }

/-- C8 witness: an empty filesystem, one batch, the sample configuration. -/
theorem c8_load_once_at_startup_witness :
    ((fun _ : String => (none : Option (List (String × ℕ)))) "g" = none ∧
     (fun _ : String => (none : Option (List (String × ℕ)))) "d" = none) ∧
    (startupGenState (fun _ => none) "g" 0 = some 0 ∧
     startupDisState (fun _ => none) "d" 1 2 = some (1, 2) ∧
     (mainTrace sampleConfig ((fun _ : String =>
         (none : Option (List (String × ℕ)))) "g").isSome
       ((fun _ : String => (none : Option (List (String × ℕ)))) "d").isSome
       1).countP Event.isLoad = 0 ∧
     (∀ gE dE : Bool,
       (mainTrace sampleConfig gE dE 1).countP Event.isLoadGen ≤ 1 ∧
       (mainTrace sampleConfig gE dE 1).countP Event.isLoadDis ≤ 1) ∧
     (∀ ev ∈ epochsTrace sampleConfig 1, Event.isLoad ev = false)) :=
  ⟨⟨rfl, rfl⟩,
    c8_load_once_at_startup sampleConfig 1 (fun _ => none) "g" "d" 0 1 2 rfl rfl⟩

/-- The batch part of an epoch contains no epoch-completion event. -/
theorem batchTrace_countP_epochDone (cfg : RunConfig) (e nb : ℕ) :
    (batchTrace cfg e nb).countP Event.isEpochDone = 0 := by
  rw [List.countP_eq_zero]
  intro a ha
  rcases mem_batchTrace cfg e nb a ha with ⟨b, _, h | h⟩ <;> subst h <;> simp [Event.isEpochDone]

/-- The batch part of an epoch contains no checkpoint save. -/
theorem batchTrace_countP_save (cfg : RunConfig) (e nb : ℕ) :
    (batchTrace cfg e nb).countP Event.isSave = 0 := by
  rw [List.countP_eq_zero]
  intro a ha
  rcases mem_batchTrace cfg e nb a ha with ⟨b, _, h | h⟩ <;> subst h <;> simp [Event.isSave]

/-- Each epoch emits exactly one epoch-completion event. -/
theorem epochTrace_countP_epochDone (cfg : RunConfig) (e nb : ℕ) :
    (epochTrace cfg e nb).countP Event.isEpochDone = 1 := by
  rw [epochTrace, List.countP_append, List.countP_append,
    batchTrace_countP_epochDone]
  cases hs : cfg.saveModel <;>
    simp [List.countP_cons, Event.isEpochDone]

/-- Each epoch emits one checkpoint save when `save_model` is on, none
otherwise. -/
theorem epochTrace_countP_save (cfg : RunConfig) (e nb : ℕ) :
    (epochTrace cfg e nb).countP Event.isSave
      = if cfg.saveModel then 1 else 0 := by
  rw [epochTrace, List.countP_append, List.countP_append,
    batchTrace_countP_save]
  cases hs : cfg.saveModel <;>
    simp [List.countP_cons, Event.isSave]

/-- The number of epoch-completion events over any list of epoch indices is
the number of epochs run. -/
theorem flatMap_countP_epochDone (cfg : RunConfig) (nb : ℕ) (l : List ℕ) :
    ((l.flatMap fun e => epochTrace cfg e nb)).countP Event.isEpochDone
      = l.length := by
  induction l with
  | nil => rfl
  | cons x xs ih =>
      rw [List.flatMap_cons, List.countP_append, epochTrace_countP_epochDone, ih]
      simp [Nat.add_comm]

/-- The startup block emits no save, no CSV row and no completion event. -/
theorem startupTrace_counts (gE dE : Bool) :
    (startupTrace gE dE).countP Event.isEpochDone = 0 ∧
    (startupTrace gE dE).countP Event.isSave = 0 ∧
    (startupTrace gE dE).countP Event.isCsv = 0 := by
  cases gE <;> cases dE <;>
    simp [startupTrace, List.countP_append, List.countP_cons,
      Event.isEpochDone, Event.isSave, Event.isCsv]

/-- C9. A run performs exactly the configured number of epochs, with no
early stopping; a 0-epoch run emits no checkpoint save and no CSV row; a
1-epoch run with `save_model` off emits no checkpoint save, while with
`save_stats` on and at least one batch it still emits a CSV row. -/
theorem c9_run_shape (cfg : RunConfig) (gE dE : Bool) (nb : ℕ) :
    (mainTrace cfg gE dE nb).countP Event.isEpochDone = cfg.epochs ∧
    (cfg.epochs = 0 →
      (mainTrace cfg gE dE nb).countP Event.isSave = 0 ∧
      (mainTrace cfg gE dE nb).countP Event.isCsv = 0) ∧
    (cfg.epochs = 1 → cfg.saveModel = false →
      (mainTrace cfg gE dE nb).countP Event.isSave = 0 ∧
      (cfg.saveStats = true → 1 ≤ nb →
        1 ≤ (mainTrace cfg gE dE nb).countP Event.isCsv)) := by
  obtain ⟨hs1, hs2, hs3⟩ := startupTrace_counts gE dE
  refine ⟨?_, ?_, ?_⟩
  · rw [mainTrace, List.countP_append, hs1, epochsTrace,
      flatMap_countP_epochDone, List.length_range]
    simp
  · intro h0
    rw [mainTrace, List.countP_append, List.countP_append, hs2, hs3,
      epochsTrace, h0]
    simp
  · intro h1 hsm
    constructor
    · have hr : List.range 1 = [0] := rfl
      rw [mainTrace, List.countP_append, hs2, epochsTrace, h1, hr,
        List.flatMap_cons]
      simp [epochTrace_countP_save, hsm]
    · intro hst hnb
      have hmem : Event.csvRow 0 0 ∈ mainTrace cfg gE dE nb := by
        rw [mainTrace, List.mem_append]
        right
        rw [epochsTrace, List.mem_flatMap]
        refine ⟨0, by simp [h1], ?_⟩
        rw [epochTrace, List.mem_append, List.mem_append]
        left; left
        rw [batchTrace, List.mem_flatMap]
        refine ⟨0, by rw [List.mem_range]; omega, ?_⟩
        rw [Nat.zero_mod, if_pos rfl, hst]
        simp
      have hpos : 0 < (mainTrace cfg gE dE nb).countP Event.isCsv := by
        rw [List.countP_pos_iff]
        exact ⟨Event.csvRow 0 0, hmem, rfl⟩
      omega

/-- C9 witness: the sample configuration (1 epoch, `save_model` off,
`save_stats` on), one batch. -/
theorem c9_run_shape_witness :
    (mainTrace sampleConfig false false 1).countP Event.isEpochDone
      = sampleConfig.epochs ∧
    (mainTrace sampleConfig false false 1).countP Event.isSave = 0 ∧
    1 ≤ (mainTrace sampleConfig false false 1).countP Event.isCsv := by
  have h := c9_run_shape sampleConfig false false 1
  exact ⟨h.1, (h.2.2 rfl rfl).1, (h.2.2 rfl rfl).2 rfl (by decide)⟩

/-! ### Encoder guard -/

/-- The image encoder module; the CNN internals are out of scope, so only
its identity as a constructed object is modelled. -/
structure Encoder where
  arch : String
deriving DecidableEq

/-- The CNN forward pass is out of scope; the feature map is abstracted as
the identity on the image batch. -/
def Encoder.apply (_ : Encoder) (imgs : List ℚ) : List ℚ := imgs

/-- Encoder construction in `main` (src lines 36, 68-77): `encoder = None`
at first; with precomputed image features it stays `None`, otherwise
`Encoder(args.cnn_architecture)` is built. -/
def mainEncoder (useImageFeatures : Bool) (arch : String) : Option Encoder :=
  if useImageFeatures then none else some ⟨arch⟩

/-- The `encoder.eval()` call in `train` (src lines 120-121), guarded by
`not args.use_image_features`; dereferencing `None` is modelled as `none`. -/
def trainEncoderEval (useImageFeatures : Bool) (enc : Option Encoder) :
    Option Unit :=
  if useImageFeatures then some () else enc.map fun _ => ()

/-- The `imgs = encoder(imgs)` call in `train` (src lines 133-134), guarded
by the same flag. -/
def trainEncodeImgs (useImageFeatures : Bool) (enc : Option Encoder)
    (imgs : List ℚ) : Option (List ℚ) :=
  if useImageFeatures then some imgs
  else enc.map fun enc2 => enc2.apply imgs

/-- C10. With precomputed image features the encoder stays `None`, and in
both configurations the two encoder touch-points in `train` are guarded by
the same flag as its construction, so neither ever dereferences `None`. -/
theorem c10_no_none_dereference (useImageFeatures : Bool) (arch : String)
    (imgs : List ℚ) :
    mainEncoder true arch = none ∧
    (trainEncoderEval useImageFeatures (mainEncoder useImageFeatures arch)).isSome
      = true ∧
    (trainEncodeImgs useImageFeatures (mainEncoder useImageFeatures arch)
      imgs).isSome = true := by
  cases useImageFeatures <;>
    simp [mainEncoder, trainEncoderEval, trainEncodeImgs]
